import Mathlib

set_option synthInstance.maxSize 1024

/-!
Shallow embedding of the GASTRoNOoM cache/coordination layer of ComboCode
(`cc/modeling/codes/Gastronoom.py`).

The three stage databases (cooling, mline, sphinx) are Python dicts persisted
by a `Database` object; here each dict is an association list from string keys
to values, and iteration in `sorted(d.items())` order is modelled by an
insertion sort on the keys.  The configuration dictionaries compared by
`ModelingSession.compareCommandLists` (which lives outside the embedded file)
are kept abstract: every lookup takes the comparison as a boolean-valued
function parameter.  The external solver (`execGastronoom`) is modelled by
counting invocations, and the file system checks (`os.path.isfile`, `glob`)
are boolean / numeric parameters.
-/

namespace Gastronoom

/-- Lexicographic comparison of character lists by code point, the order
Python's `sorted` uses on the identifier strings. -/
def charListLe : List Char → List Char → Bool
  | [], _ => true
  | _ :: _, [] => false
  | a :: as, b :: bs =>
    if a.toNat < b.toNat then true
    else if b.toNat < a.toNat then false
    else charListLe as bs

/-- `strLe a b`: identifier `a` sorts no later than identifier `b`. -/
def strLe (a b : String) : Bool := charListLe a.data b.data

/-- Keys are model-id / molecule-name / transition-signature strings. -/
abbrev Entries (α : Type) := List (String × α)

/-- `d[k]` for a Python dict modelled as an association list. -/
def lookupKey (k : String) (l : Entries α) : Option α :=
  (l.find? (fun kv => kv.1 = k)).map (·.2)

/-- `k in d` for a Python dict. -/
def hasKey (k : String) (l : Entries α) : Bool :=
  (lookupKey k l).isSome

/-- `d[k] = v`: replace the binding of `k`, or append a fresh one. -/
def setKey (k : String) (v : α) : Entries α → Entries α
  | [] => [(k, v)]
  | (k', v') :: t => if k' = k then (k, v) :: t else (k', v') :: setKey k v t

/-- `del d[k]`, tolerating an absent key (the callers in the source either
guard the deletion or wrap it in `try/except KeyError`). -/
def eraseKey (k : String) (l : Entries α) : Entries α :=
  l.filter (fun kv => kv.1 ≠ k)

/-- Apply `f` to the value bound to `k`, leaving other bindings alone. -/
def modifyKey (k : String) (f : α → α) (l : Entries α) : Entries α :=
  l.map (fun kv => if kv.1 = k then (kv.1, f kv.2) else kv)

/-- Insert one pair into a list already sorted by key. -/
def insortKey (x : String × α) : Entries α → Entries α
  | [] => [x]
  | y :: ys => if strLe x.1 y.1 then x :: y :: ys else y :: insortKey x ys

/-- `sorted(d.items())`: the bindings in ascending key order. -/
def sortPairs : Entries α → Entries α
  | [] => []
  | x :: xs => insortKey x (sortPairs xs)

/-! ### The stage databases

`cool_db`  : `cooling_id -> config`
`ml_db`    : `cooling_id -> mline_id -> molecule_name -> config`
`sph_db`   : `cooling_id -> molec_id -> trans_id -> str(trans) -> entry`
where a sphinx entry is the transition's config dict together with the
presence of its `IN_PROGRESS` key. -/

abbrev CoolDb (C : Type) := Entries C
abbrev MolDict (C : Type) := Entries C
abbrev MlSub (C : Type) := Entries (MolDict C)
abbrev MlDb (C : Type) := Entries (MlSub C)

/-- A sphinx database leaf: `trans.makeDict()` plus the `IN_PROGRESS` flag.
`trans.makeDict(1)` is `⟨cfg, true⟩`. -/
structure TransEntry (C : Type) where
  cfg : C
  inprog : Bool
  deriving DecidableEq

abbrev SigDict (C : Type) := Entries (TransEntry C)
abbrev TransSub (C : Type) := Entries (SigDict C)
abbrev MolSub (C : Type) := Entries (TransSub C)
abbrev SphDb (C : Type) := Entries (MolSub C)

instance [DecidableEq C] : DecidableEq (MlSub C) := inferInstance

instance [DecidableEq C] : DecidableEq (MlDb C) := inferInstance

instance [DecidableEq C] : DecidableEq (TransSub C) := inferInstance

instance [DecidableEq C] : DecidableEq (MolSub C) := inferInstance

instance [DecidableEq C] : DecidableEq (SphDb C) := inferInstance

/-- The pieces of session state that the cooling stage touches.  `cool_disk`
is the cooling database as persisted on disk: `Database.__delitem__` updates
the disk immediately (the `deleteCoolingId` docstring: "The databases on the
hard disk are updated as well!"), while ordinary insertions only reach the
disk at an explicit `sync()`. -/
structure CoolState (C : Type) where
  model_id : String
  cool_db : CoolDb C
  cool_disk : CoolDb C
  ml_db : MlDb C
  sph_db : SphDb C
  deriving DecidableEq

/-- `Gastronoom.deleteCoolingId` (lines 224-246): drop the cooling id from the
cooling database and from the mline and sphinx databases, where a missing key
is tolerated (`try/except KeyError`). -/
def deleteCoolingId (model_id : String) (st : CoolState C) : CoolState C :=
  { st with
      cool_db := eraseKey model_id st.cool_db
      cool_disk := eraseKey model_id st.cool_disk
      ml_db := eraseKey model_id st.ml_db
      sph_db := eraseKey model_id st.sph_db }

/-- The scan of `checkCoolingDatabase` (line 267): iterate over
`sorted(cool_db.items())` and return the first entry the comparison accepts.
`p` abstracts `compareCommandLists(command_list, cool_dict, 'cooling',
extra_dict=molec_dict)` as a predicate on the stored dict. -/
def coolScan (p : C → Bool) (db : CoolDb C) : Option (String × C) :=
  (sortPairs db).find? (fun kv => p kv.2)

/-- `Gastronoom.checkCoolingDatabase` (lines 254-284).  On the first match:
in replace mode with the matched id not protected by `new_entries`, the whole
cooling id is deleted from every database and the check reports a miss;
otherwise the session adopts the matched id and the check reports a hit. -/
def checkCoolingDatabase (p : C → Bool) (replace_db_entry : Bool)
    (new_entries : List String) (st : CoolState C) : Bool × CoolState C :=
  match coolScan p st.cool_db with
  | some (model_id, _) =>
      if replace_db_entry && !(new_entries.contains model_id) then
        (false, deleteCoolingId model_id st)
      else
        (true, { st with model_id := model_id })
  | none => (false, st)

/-- `Gastronoom.doCooling` (lines 508-584), reduced to its cache behaviour.
`skip_cooling` suppresses the solver call; `ok` is the
`os.path.isfile(coolfgr_all<id>.dat)` test after the run; `storeCfg` is the
dict `molec_dict.update(command_list)` written to the database on success.
The returned number counts `execGastronoom` invocations. -/
def doCooling (p : C → Bool) (replace_db_entry : Bool)
    (new_entries : List String) (skip_cooling : Bool) (ok : Bool)
    (storeCfg : C) (st : CoolState C) : CoolState C × Nat :=
  let r := checkCoolingDatabase p replace_db_entry new_entries st
  if r.1 then (r.2, 0)
  else
    let execs := if skip_cooling then 0 else 1
    if ok then
      let db := setKey r.2.model_id storeCfg r.2.cool_db
      ({ r.2 with cool_db := db, cool_disk := db }, execs)
    else
      ({ r.2 with model_id := "" }, execs)

/-- One cooling request as issued by `Gastronoom.doGastronoom` (lines
842-943): the previous model id (when set) is protected in `new_entries`, a
fresh id from `makeNewId` becomes the session id, and `doCooling` runs. -/
def requestCooling (p : C → Bool) (replace_db_entry : Bool)
    (new_entries : List String) (skip_cooling : Bool) (ok : Bool)
    (storeCfg : C) (newId : String) (st : CoolState C) : CoolState C × Nat :=
  let ne := if st.model_id ≠ "" then new_entries ++ [st.model_id]
            else new_entries
  doCooling p replace_db_entry ne skip_cooling ok storeCfg
    { st with model_id := newId }

/-! ### Stage B: mline -/

/-- A molecule of the session's `molec_list`: its name, the dict produced by
`molec.makeDict()` (kept abstract), and its mline model id, `None` until the
session assigns one. -/
structure Molec (C : Type) where
  molecule : String
  cfg : C
  mid : Option String
  deriving DecidableEq

/-- The molecules whose abundance keys `compareCommandLists` is told to
ignore (`self.no_ab_molecs`, lines 125-126). -/
def no_ab_molecs : List String :=
  ["12C16O", "13C16O", "1H1H16O", "p1H1H16O",
   "1H1H17O", "p1H1H17O", "1H1H18O", "p1H1H18O"]

/-- The match scan of `checkMlineDatabase` (lines 313-327): over
`sorted(ml_db[model_id].items())`, keep the mline ids whose dict contains the
molecule, and return the first whose stored config the comparison accepts.
`mm this stored ignoreAbun` abstracts
`compareCommandLists(this_list, modellist, 'mline', ignoreAbun=...)`. -/
def mlineScan (mm : C → C → Bool → Bool) (molecule : String) (cfg : C)
    (sub : MlSub C) : Option String :=
  (((sortPairs sub).filterMap
      (fun kv => (lookupKey molecule kv.2).map (fun c => (kv.1, c)))).find?
    (fun kc => mm cfg kc.2 (no_ab_molecs.contains molecule))).map (·.1)

/-- The reuse scan of `checkMlineDatabase` (lines 330-333): the first mline id
under the cooling id whose dict does not yet contain the molecule. -/
def mlineFreeSlot (molecule : String) (sub : MlSub C) : Option String :=
  ((sortPairs sub).find? (fun kv => !(hasKey molecule kv.2))).map (·.1)

/-- The in-memory state threaded through one `checkMlineDatabase` call:
the mline database, the accumulated `model_bools`, the `new_molec_id`
(empty string while no fresh id has been made), and a count of `makeNewId`
calls. -/
structure MlState (C : Type) where
  ml_db : MlDb C
  bools : List Bool
  newMolecId : String
  allocs : Nat
  deriving DecidableEq

/-- The body of the `for molec in self.molec_list` loop of
`checkMlineDatabase` (lines 312-346) for one molecule. -/
def mlineStep (mm : C → C → Bool → Bool) (model_id mkId : String)
    (st : MlState C) (m : Molec C) : MlState C × Molec C :=
  let sub := (lookupKey model_id st.ml_db).getD []
  match mlineScan mm m.molecule m.cfg sub with
  | some molec_id =>
      ({ st with bools := st.bools ++ [true] }, { m with mid := some molec_id })
  | none =>
      if m.mid ≠ none then (st, m)
      else
        let st := { st with bools := st.bools ++ [false] }
        match mlineFreeSlot m.molecule sub with
        | some k => (st, { m with mid := some k })
        | none =>
            if st.newMolecId = "" then
              ({ st with
                  ml_db := modifyKey model_id (setKey mkId []) st.ml_db
                  newMolecId := mkId
                  allocs := st.allocs + 1 },
               { m with mid := some mkId })
            else (st, { m with mid := some st.newMolecId })

/-- The loop of `checkMlineDatabase` over the whole `molec_list`. -/
def mlineSteps (mm : C → C → Bool → Bool) (model_id mkId : String) :
    MlState C → List (Molec C) → MlState C × List (Molec C)
  | st, [] => (st, [])
  | st, m :: ms =>
      let r := mlineStep mm model_id mkId st m
      let rs := mlineSteps mm model_id mkId r.1 ms
      (rs.1, r.2 :: rs.2)

/-- `Gastronoom.checkMlineDatabase` (lines 288-349).  When the cooling id has
no mline entry at all, every molecule is assigned the cooling id itself, the
database gains the nested entry `model_id -> model_id -> {}`, and every
molecule is a miss (lines 299-302); otherwise the per-molecule loop runs. -/
def checkMlineDatabase (mm : C → C → Bool → Bool) (model_id mkId : String)
    (ml_db : MlDb C) (molecs : List (Molec C)) : MlState C × List (Molec C) :=
  if !(hasKey model_id ml_db) then
    (⟨setKey model_id [(model_id, [])] ml_db,
      List.replicate molecs.length false, "", 0⟩,
     molecs.map (fun m => { m with mid := some model_id }))
  else
    mlineSteps mm model_id mkId ⟨ml_db, [], "", 0⟩ molecs

/-- One iteration of the run loop of `doMline` (lines 606-638): molecules the
check found are skipped; otherwise the solver runs, and the molecule's dict is
stored under its id exactly when three `ml*` output files exist, the model id
being cleared otherwise.  `nfiles mid molecule` abstracts the
`glob('ml*<mid>_<molecule>.dat')` count. -/
def doMlineRun (nfiles : String → String → Nat) (model_id : String)
    (acc : MlDb C × Nat) (mb : Molec C × Bool) : (MlDb C × Nat) × Molec C :=
  let m := mb.1
  if mb.2 then (acc, m)
  else
    let execs := acc.2 + 1
    let mid := m.mid.getD ""
    if nfiles mid m.molecule = 3 then
      ((modifyKey model_id (modifyKey mid (setKey m.molecule m.cfg)) acc.1,
        execs), m)
    else ((acc.1, execs), { m with mid := some "" })

/-- The run loop of `doMline` over `zip(self.molec_list, model_bools)`. -/
def doMlineRuns (nfiles : String → String → Nat) (model_id : String) :
    MlDb C × Nat → List (Molec C × Bool) → (MlDb C × Nat) × List (Molec C)
  | acc, [] => (acc, [])
  | acc, mb :: mbs =>
      let r := doMlineRun nfiles model_id acc mb
      let rs := doMlineRuns nfiles model_id r.1 mbs
      (rs.1, r.2 :: rs.2)

/-- `Gastronoom.doMline` (lines 588-650), reduced to its cache behaviour:
check the database, run the solver for the missing molecules, and clear the
session's cooling model id exactly when every molecule ended with an empty
model id (lines 639-643).  Returns the final cooling model id, the mline
database, the molecule list, and the number of solver invocations. -/
def doMline (mm : C → C → Bool → Bool) (nfiles : String → String → Nat)
    (model_id mkId : String) (ml_db : MlDb C) (molecs : List (Molec C)) :
    String × MlDb C × List (Molec C) × Nat :=
  let c := checkMlineDatabase mm model_id mkId ml_db molecs
  let r := doMlineRuns nfiles model_id (c.1.ml_db, 0) (c.2.zip c.1.bools)
  let ms := r.2
  let model_id' :=
    if !ms.isEmpty && ms.all (fun m => m.mid == some "") then "" else model_id
  (model_id', r.1.1, ms, r.1.2)

/-! ### Stage C: sphinx -/

/-- A transition of the session's `trans_list`: its signature `str(trans)`,
its molecule's name, its molecule's mline model id (the empty string when
mline failed for the molecule — `trans.molecule.getModelId()` with `None`
and `''` both falsy), the dict `trans.makeDict()`, and its own sphinx model
id, `None` until the session assigns one. -/
structure TransT (C : Type) where
  sig : String
  molecule : String
  molecId : String
  cfg : C
  mid : Option String
  deriving DecidableEq

/-- The match scan of `checkSphinxDatabase` (lines 389-419): over
`sorted(sph_db[model_id][molec_id].items())`, keep the trans ids whose dict
contains the signature, and return the first (id, entry) whose stored config
the comparison accepts.  `ms this stored` abstracts
`compareCommandLists(this_list, modellist, 'sphinx')`. -/
def sphinxScan (ms : C → C → Bool) (sig : String) (cfg : C)
    (sub : TransSub C) : Option (String × TransEntry C) :=
  ((sortPairs sub).filterMap
      (fun kv => (lookupKey sig kv.2).map (fun e => (kv.1, e)))).find?
    (fun ke => ms cfg ke.2.cfg)

/-- The reuse scan of `checkSphinxDatabase` (lines 422-426): the first trans
id under `(model_id, molec_id)` whose dict does not yet contain the
signature. -/
def sphinxFreeSlot (sig : String) (sub : TransSub C) : Option String :=
  ((sortPairs sub).find? (fun kv => !(hasKey sig kv.2))).map (·.1)

/-- The in-memory state threaded through one `checkSphinxDatabase` call:
the sphinx database, the accumulated `trans_bools`, the session's
`trans_in_progress` list, the vic manager's queued transitions, the
`new_trans_id`, and a count of `makeNewId` calls. -/
structure SphState (C : Type) where
  sph_db : SphDb C
  bools : List Bool
  tip : List (TransT C)
  vicq : List (TransT C)
  newTransId : String
  allocs : Nat
  deriving DecidableEq

/-- The body of the `for trans in self.trans_list` loop of
`checkSphinxDatabase` (lines 376-449) for one transition.  `vic` records
whether a vic manager is attached. -/
def sphinxStep (ms : C → C → Bool) (vic : Bool) (model_id mkId : String)
    (st : SphState C) (t : TransT C) : SphState C × TransT C :=
  if t.molecId = "" then
    ({ st with bools := st.bools ++ [false] }, { t with mid := some "" })
  else
    let msub := (lookupKey model_id st.sph_db).getD []
    if !(hasKey t.molecId msub) then
      ({ st with
          sph_db := modifyKey model_id
            (setKey t.molecId [(t.molecId, [(t.sig, ⟨t.cfg, true⟩)])])
            st.sph_db
          bools := st.bools ++ [false] },
       { t with mid := some t.molecId })
    else
      let sub := (lookupKey t.molecId msub).getD []
      match sphinxScan ms t.sig t.cfg sub with
      | some (trans_id, e) =>
          let t' := { t with mid := some trans_id }
          let st' := { st with bools := st.bools ++ [true] }
          if e.inprog then
            if vic then ({ st' with vicq := st'.vicq ++ [t'] }, t')
            else ({ st' with tip := st'.tip ++ [t'] }, t')
          else (st', t')
      | none =>
          if t.mid ≠ none then (st, t)
          else
            let st := { st with bools := st.bools ++ [false] }
            let r : String × TransSub C × String × Nat :=
              match sphinxFreeSlot t.sig sub with
              | some k => (k, sub, st.newTransId, st.allocs)
              | none =>
                  let nid := if st.newTransId = "" then mkId
                             else st.newTransId
                  let allocs := if st.newTransId = "" then st.allocs + 1
                                else st.allocs
                  (nid,
                   if hasKey nid sub then sub else setKey nid [] sub,
                   nid, allocs)
            let sub2 := modifyKey r.1 (setKey t.sig ⟨t.cfg, true⟩) r.2.1
            ({ st with
                sph_db := modifyKey model_id (setKey t.molecId sub2) st.sph_db
                newTransId := r.2.2.1
                allocs := r.2.2.2 },
             { t with mid := some r.1 })

/-- The loop of `checkSphinxDatabase` over the whole `trans_list`. -/
def sphinxSteps (ms : C → C → Bool) (vic : Bool) (model_id mkId : String) :
    SphState C → List (TransT C) → SphState C × List (TransT C)
  | st, [] => (st, [])
  | st, t :: ts =>
      let r := sphinxStep ms vic model_id mkId st t
      let rs := sphinxSteps ms vic model_id mkId r.1 ts
      (rs.1, r.2 :: rs.2)

/-- `Gastronoom.checkSphinxDatabase` (lines 353-451): ensure the cooling id
has a sphinx entry (lines 363-364), then run the per-transition loop. -/
def checkSphinxDatabase (ms : C → C → Bool) (vic : Bool)
    (model_id mkId : String) (st : SphState C) (ts : List (TransT C)) :
    SphState C × List (TransT C) :=
  let st := if !(hasKey model_id st.sph_db) then
              { st with sph_db := setKey model_id [] st.sph_db }
            else st
  sphinxSteps ms vic model_id mkId st ts

/-- Whether `doSphinx` (lines 670-709) runs the solver locally for one
transition: only a transition the check did not find, with a non-empty model
id, when sphinx is requested, no vic manager is attached, and no recovery
mode is active. -/
def sphinxRunsLocally (sphinx vic recover trans_bool : Bool)
    (t : TransT C) : Bool :=
  !trans_bool && !(t.mid.getD "" == "") && sphinx && !vic && !recover

/-- The database leaf `sph_db[model_id][molecId][mid][sig]` for a
transition, `none` when any key along the path is absent. -/
def sphinxLeaf (model_id : String) (db : SphDb C) (t : TransT C) :
    Option (TransEntry C) :=
  ((((lookupKey model_id db).bind
      (lookupKey t.molecId)).bind
      (lookupKey (t.mid.getD ""))).bind
      (lookupKey t.sig))

/-- The `trans_in_progress` pass of `finalizeSphinx` (lines 747-753): a
transition whose database leaf is gone, or still carries `IN_PROGRESS`, has
its model id reset to the empty string. -/
def finalizeTransInProgress (model_id : String) (db : SphDb C)
    (t : TransT C) : TransT C :=
  match sphinxLeaf model_id db t with
  | none => { t with mid := some "" }
  | some e => if e.inprog then { t with mid := some "" } else t

/-- `Gastronoom.finalizeSphinx` (lines 736-753): clear the session's cooling
model id when every transition ended with an empty id, then reset the ids of
stale in-progress transitions. -/
def finalizeSphinx (model_id : String) (db : SphDb C)
    (ts tip : List (TransT C)) : String × List (TransT C) :=
  let model_id' :=
    if !ts.isEmpty && ts.all (fun t => t.mid == some "") then "" else model_id
  (model_id', tip.map (finalizeTransInProgress model_id' db))

/-- `Gastronoom.checkSphinxOutput` (lines 757-789): the run succeeded exactly
when the `glob` for the transition's output filename pattern matches two
files.  On success the leaf's `IN_PROGRESS` flag is dropped and the entry
kept; otherwise the single `(trans_id, signature)` leaf is deleted and the
transition's model id is cleared. -/
def checkSphinxOutput (nglob : Nat) (model_id : String) (db : SphDb C)
    (t : TransT C) : SphDb C × TransT C :=
  let mid := t.mid.getD ""
  if nglob == 2 then
    (modifyKey model_id (modifyKey t.molecId (modifyKey mid
        (modifyKey t.sig (fun e => { e with inprog := false })))) db,
     t)
  else
    (modifyKey model_id (modifyKey t.molecId (modifyKey mid
        (eraseKey t.sig))) db,
     { t with mid := some "" })

/-! ### Facts about the key order and the sorted iteration -/

theorem charListLe_refl (l : List Char) : charListLe l l = true := by
  induction l with
  | nil => rfl
  | cons a as ih => simp [charListLe, ih]

theorem strLe_refl (s : String) : strLe s s = true :=
  charListLe_refl s.data

theorem charListLe_total (l m : List Char) :
    charListLe l m = true ∨ charListLe m l = true := by
  induction l generalizing m with
  | nil => left; rfl
  | cons a as ih =>
    cases m with
    | nil => right; rfl
    | cons b bs =>
      rcases Nat.lt_trichotomy a.toNat b.toNat with h | h | h
      · left; simp [charListLe, h]
      · rcases ih bs with h2 | h2
        · left; simp [charListLe, h, h2]
        · right; simp [charListLe, h, h2]
      · right; simp [charListLe, h]

theorem strLe_total (a b : String) : strLe a b = true ∨ strLe b a = true :=
  charListLe_total a.data b.data

theorem of_charListLe_cons {x z : Char} {xs zs : List Char}
    (h : charListLe (x :: xs) (z :: zs) = true) :
    x.toNat < z.toNat ∨ (x.toNat = z.toNat ∧ charListLe xs zs = true) := by
  simp only [charListLe] at h
  by_cases h1 : x.toNat < z.toNat
  · exact Or.inl h1
  · rw [if_neg h1] at h
    by_cases h2 : z.toNat < x.toNat
    · rw [if_pos h2] at h
      exact absurd h (by simp)
    · rw [if_neg h2] at h
      exact Or.inr ⟨Nat.le_antisymm (Nat.le_of_not_lt h2) (Nat.le_of_not_lt h1), h⟩

theorem charListLe_cons_of_lt {x z : Char} {xs zs : List Char}
    (h : x.toNat < z.toNat) : charListLe (x :: xs) (z :: zs) = true := by
  simp [charListLe, h]

theorem charListLe_cons_of_eq {x z : Char} {xs zs : List Char}
    (h : x.toNat = z.toNat) (h2 : charListLe xs zs = true) :
    charListLe (x :: xs) (z :: zs) = true := by
  simp [charListLe, h, Nat.lt_irrefl, h2]

theorem charListLe_trans {a b c : List Char} (h1 : charListLe a b = true)
    (h2 : charListLe b c = true) : charListLe a c = true := by
  induction a generalizing b c with
  | nil => rfl
  | cons x xs ih =>
    cases b with
    | nil => exact absurd h1 (by simp [charListLe])
    | cons y ys =>
      cases c with
      | nil => exact absurd h2 (by simp [charListLe])
      | cons z zs =>
        rcases of_charListLe_cons h1 with hxy | ⟨hxy, hr1⟩ <;>
          rcases of_charListLe_cons h2 with hyz | ⟨hyz, hr2⟩
        · exact charListLe_cons_of_lt (Nat.lt_trans hxy hyz)
        · exact charListLe_cons_of_lt (hyz ▸ hxy)
        · exact charListLe_cons_of_lt (hxy ▸ hyz)
        · exact charListLe_cons_of_eq (hxy.trans hyz) (ih hr1 hr2)

theorem strLe_trans {a b c : String} (h1 : strLe a b = true)
    (h2 : strLe b c = true) : strLe a c = true :=
  charListLe_trans h1 h2

theorem insortKey_perm (x : String × α) (l : Entries α) :
    List.Perm (insortKey x l) (x :: l) := by
  induction l with
  | nil => exact List.Perm.refl _
  | cons y ys ih =>
    simp only [insortKey]
    split
    · exact List.Perm.refl _
    · exact ((ih.cons y).trans (List.Perm.swap x y ys))

theorem sortPairs_perm (l : Entries α) : List.Perm (sortPairs l) l := by
  induction l with
  | nil => exact List.Perm.refl _
  | cons x xs ih => exact (insortKey_perm x (sortPairs xs)).trans (ih.cons x)

theorem mem_sortPairs {x : String × α} {l : Entries α} :
    x ∈ sortPairs l ↔ x ∈ l :=
  (sortPairs_perm l).mem_iff

theorem pairwise_insortKey (x : String × α) {l : Entries α}
    (h : l.Pairwise (fun a b => strLe a.1 b.1 = true)) :
    (insortKey x l).Pairwise (fun a b => strLe a.1 b.1 = true) := by
  induction l with
  | nil => simp [insortKey]
  | cons y ys ih =>
    rw [List.pairwise_cons] at h
    obtain ⟨hy, hys⟩ := h
    simp only [insortKey]
    split
    · rename_i hle
      refine List.Pairwise.cons ?_ (List.pairwise_cons.mpr ⟨hy, hys⟩)
      intro z hz
      rcases List.mem_cons.mp hz with hz | hz
      · exact hz ▸ hle
      · exact strLe_trans hle (hy z hz)
    · rename_i hle
      refine List.Pairwise.cons ?_ (ih hys)
      intro z hz
      have hz2 : z ∈ x :: ys := (insortKey_perm x ys).mem_iff.mp hz
      rcases List.mem_cons.mp hz2 with hz3 | hz3
      · subst hz3
        rcases strLe_total z.1 y.1 with h' | h'
        · exact absurd h' hle
        · exact h'
      · exact hy z hz3

theorem sortPairs_pairwise (l : Entries α) :
    (sortPairs l).Pairwise (fun a b => strLe a.1 b.1 = true) := by
  induction l with
  | nil => simp [sortPairs]
  | cons x xs ih => exact pairwise_insortKey x ih

theorem find?_key_min {p : String × α → Bool} {l : Entries α}
    {y : String × α}
    (hs : l.Pairwise (fun a b => strLe a.1 b.1 = true))
    (hf : l.find? p = some y) :
    ∀ x ∈ l, p x = true → strLe y.1 x.1 = true := by
  induction l with
  | nil => simp at hf
  | cons a t ih =>
    rw [List.pairwise_cons] at hs
    obtain ⟨ha, ht⟩ := hs
    intro x hx hp
    by_cases hpa : p a = true
    · rw [List.find?_cons_of_pos _ hpa] at hf
      cases hf
      rcases List.mem_cons.mp hx with hx | hx
      · exact hx ▸ strLe_refl _
      · exact ha x hx
    · rw [List.find?_cons_of_neg _ (by simpa using hpa)] at hf
      rcases List.mem_cons.mp hx with hx | hx
      · exact absurd (hx ▸ hp) hpa
      · exact ih ht hf x hx hp

/-! ### Facts about the dict operations -/

theorem lookupKey_nil (k : String) : lookupKey k ([] : Entries α) = none := rfl

theorem lookupKey_cons (k : String) (x : String × α) (l : Entries α) :
    lookupKey k (x :: l) = if x.1 = k then some x.2 else lookupKey k l := by
  by_cases h : x.1 = k <;> simp [lookupKey, List.find?_cons, h]

theorem lookupKey_eq_none_iff {k : String} {l : Entries α} :
    lookupKey k l = none ↔ ∀ x ∈ l, x.1 ≠ k := by
  simp [lookupKey, List.find?_eq_none]

theorem lookupKey_setKey_self (k : String) (v : α) (l : Entries α) :
    lookupKey k (setKey k v l) = some v := by
  induction l with
  | nil => simp [setKey, lookupKey_cons]
  | cons y ys ih =>
    simp only [setKey]
    split
    · simp [lookupKey_cons]
    · rename_i h
      rw [lookupKey_cons, if_neg h]
      exact ih

theorem mem_setKey {x : String × α} {k : String} {v : α} {l : Entries α}
    (h : x ∈ setKey k v l) : x = (k, v) ∨ x ∈ l := by
  induction l with
  | nil => simpa [setKey] using h
  | cons y ys ih =>
    simp only [setKey] at h
    split at h
    · rcases List.mem_cons.mp h with h | h
      · exact Or.inl h
      · exact Or.inr (List.mem_cons_of_mem y h)
    · rcases List.mem_cons.mp h with h | h
      · exact Or.inr (h ▸ List.mem_cons_self y ys)
      · rcases ih h with h' | h'
        · exact Or.inl h'
        · exact Or.inr (List.mem_cons_of_mem y h')

theorem setKey_self_mem (k : String) (v : α) (l : Entries α) :
    (k, v) ∈ setKey k v l := by
  induction l with
  | nil => simp [setKey]
  | cons y ys ih =>
    simp only [setKey]
    split
    · exact List.mem_cons_self _ _
    · exact List.mem_cons_of_mem y ih

theorem lookupKey_eraseKey_self (k : String) (l : Entries α) :
    lookupKey k (eraseKey k l) = none := by
  rw [lookupKey_eq_none_iff]
  intro x hx
  have := List.of_mem_filter hx
  simpa using this

theorem lookupKey_modifyKey_self (k : String) (f : α → α) (l : Entries α) :
    lookupKey k (modifyKey k f l) = (lookupKey k l).map f := by
  induction l with
  | nil => rfl
  | cons y ys ih =>
    simp only [modifyKey, List.map_cons] at ih ⊢
    by_cases h : y.1 = k
    · simp [h, lookupKey_cons]
    · rw [if_neg h, lookupKey_cons, lookupKey_cons, if_neg h, if_neg h]
      exact ih

theorem lookupKey_modifyKey_ne {k2 k : String} (f : α → α) (l : Entries α)
    (h : k2 ≠ k) : lookupKey k2 (modifyKey k f l) = lookupKey k2 l := by
  induction l with
  | nil => rfl
  | cons y ys ih =>
    simp only [modifyKey, List.map_cons] at ih ⊢
    by_cases hy : y.1 = k
    · rw [if_pos hy, lookupKey_cons, lookupKey_cons]
      simp only
      rw [if_neg (fun hh : y.1 = k2 => h (hh.symm.trans hy)),
          if_neg (fun hh : y.1 = k2 => h (hh.symm.trans hy))]
      exact ih
    · rw [if_neg hy, lookupKey_cons, lookupKey_cons]
      by_cases hk : y.1 = k2
      · simp [hk]
      · rw [if_neg hk, if_neg hk]
        exact ih

theorem lookupKey_eq_some_of_mem_nodup {k : String} {v : α} {l : Entries α}
    (hnd : (l.map Prod.fst).Nodup) (hm : (k, v) ∈ l) :
    lookupKey k l = some v := by
  induction l with
  | nil => simp at hm
  | cons y ys ih =>
    rcases List.nodup_cons.mp hnd with ⟨hy, hys⟩
    rcases List.mem_cons.mp hm with hm | hm
    · subst hm; simp [lookupKey_cons]
    · rw [lookupKey_cons, if_neg, ih hys hm]
      intro hk
      exact hy (hk ▸ List.mem_map_of_mem Prod.fst hm)

theorem hasKey_eq_false_iff {k : String} {l : Entries α} :
    hasKey k l = false ↔ lookupKey k l = none := by
  unfold hasKey
  cases lookupKey k l <;> simp

theorem lookupKey_eraseKey_ne {k2 k : String} (l : Entries α) (h : k2 ≠ k) :
    lookupKey k2 (eraseKey k l) = lookupKey k2 l := by
  induction l with
  | nil => rfl
  | cons y ys ih =>
    simp only [eraseKey, List.filter_cons] at ih ⊢
    by_cases hy : y.1 = k
    · rw [if_neg (by simpa using hy), lookupKey_cons, if_neg (fun hh =>
        h (hh.symm.trans hy))]
      exact ih
    · rw [if_pos (by simpa using hy), lookupKey_cons, lookupKey_cons]
      by_cases hk : y.1 = k2
      · simp [hk]
      · rw [if_neg hk, if_neg hk]
        exact ih

theorem find?_eq_some_unique {p : α → Bool} {l : List α} {a : α}
    (hmem : a ∈ l) (hpa : p a = true)
    (huniq : ∀ x ∈ l, p x = true → x = a) : l.find? p = some a := by
  cases hf : l.find? p with
  | none => exact absurd hpa (by simpa using List.find?_eq_none.mp hf a hmem)
  | some y =>
    have hy := List.find?_some hf
    have hmem2 := List.mem_of_find?_eq_some hf
    rw [huniq y hmem2 hy]

theorem coolScan_eq_none_iff {p : C → Bool} {db : CoolDb C} :
    coolScan p db = none ↔ ∀ x ∈ db, p x.2 = false := by
  unfold coolScan
  rw [List.find?_eq_none]
  constructor
  · intro h x hx
    simpa using h x (mem_sortPairs.mpr hx)
  · intro h x hx
    simpa using h x (mem_sortPairs.mp hx)

theorem coolScan_setKey_of_none {p : C → Bool} {db : CoolDb C}
    (k : String) (v : C) (hnone : coolScan p db = none) (hv : p v = true) :
    coolScan p (setKey k v db) = some (k, v) := by
  have hall := coolScan_eq_none_iff.mp hnone
  unfold coolScan
  refine find?_eq_some_unique (mem_sortPairs.mpr (setKey_self_mem k v db)) hv ?_
  intro x hx hpx
  rcases mem_setKey (mem_sortPairs.mp hx) with h | h
  · exact h
  · exact absurd hpx (by simp [hall x h])

theorem of_mlineScan_none {mm : C → C → Bool → Bool} {molecule : String}
    {cfg : C} {sub : MlSub C} (h : mlineScan mm molecule cfg sub = none) :
    ∀ kv ∈ sub, ∀ c, lookupKey molecule kv.2 = some c →
      mm cfg c (no_ab_molecs.contains molecule) = false := by
  intro kv hkv c hc
  unfold mlineScan at h
  rw [Option.map_eq_none'] at h
  have h2 := List.find?_eq_none.mp h (kv.1, c)
    (List.mem_filterMap.mpr ⟨kv, mem_sortPairs.mpr hkv, by rw [hc]; rfl⟩)
  rw [Bool.not_eq_true] at h2
  exact h2

theorem mlineScan_none_of {mm : C → C → Bool → Bool} {molecule : String}
    {cfg : C} {sub : MlSub C}
    (h : ∀ kv ∈ sub, ∀ c, lookupKey molecule kv.2 = some c →
      mm cfg c (no_ab_molecs.contains molecule) = false) :
    mlineScan mm molecule cfg sub = none := by
  unfold mlineScan
  rw [Option.map_eq_none', List.find?_eq_none]
  intro y hy
  rcases List.mem_filterMap.mp hy with ⟨kv, hkv, hmap⟩
  rcases Option.map_eq_some'.mp hmap with ⟨c, hc, hyc⟩
  subst hyc
  have h2 := h kv (mem_sortPairs.mp hkv) c hc
  simp only [Bool.not_eq_true]
  exact h2

theorem mlineFreeSlot_none_of {molecule : String} {sub : MlSub C}
    (h : ∀ kv ∈ sub, hasKey molecule kv.2 = true) :
    mlineFreeSlot molecule sub = none := by
  unfold mlineFreeSlot
  rw [Option.map_eq_none', List.find?_eq_none]
  intro kv hkv
  simp [h kv (mem_sortPairs.mp hkv)]

theorem sphinxScan_mem {ms : C → C → Bool} {sig : String} {cfg : C}
    {sub : TransSub C} {trans_id : String} {e : TransEntry C}
    (h : sphinxScan ms sig cfg sub = some (trans_id, e)) :
    ms cfg e.cfg = true ∧
      ∃ sigd, (trans_id, sigd) ∈ sub ∧ lookupKey sig sigd = some e := by
  unfold sphinxScan at h
  have hp := List.find?_some h
  have hmem := List.mem_of_find?_eq_some h
  rcases List.mem_filterMap.mp hmem with ⟨kv, hkv, hmap⟩
  rcases Option.map_eq_some'.mp hmap with ⟨e2, he2, hpair⟩
  have hk : kv.1 = trans_id := congrArg Prod.fst hpair
  have he : e2 = e := congrArg Prod.snd hpair
  subst he
  refine ⟨hp, kv.2, ?_, he2⟩
  rw [← hk]
  exact mem_sortPairs.mp hkv

/-! ### C10: an empty mline store reuses the cooling id -/

/-- C10: when the mline database has no entry under the current cooling id,
the cooling id itself becomes the first mline id: every molecule is assigned
the cooling id, the store gains the nested entry
`model_id -> model_id -> {}`, every molecule is a miss, and no fresh id is
allocated. -/
theorem mline_reuses_cooling_id (mm : C → C → Bool → Bool)
    (model_id mkId : String) (ml_db : MlDb C) (molecs : List (Molec C))
    (h : lookupKey model_id ml_db = none) :
    checkMlineDatabase mm model_id mkId ml_db molecs
      = (⟨setKey model_id [(model_id, [])] ml_db,
          List.replicate molecs.length false, "", 0⟩,
         molecs.map (fun m => { m with mid := some model_id })) := by
  unfold checkMlineDatabase
  simp [hasKey, h]

theorem mline_reuses_cooling_id_w :
    checkMlineDatabase (fun a b _ => a == b) "c1" "n" ([] : MlDb Nat)
        [⟨"CO", 3, none⟩, ⟨"H2O", 4, none⟩]
      = (⟨[("c1", [("c1", [])])], [false, false], "", 0⟩,
         [⟨"CO", 3, some "c1"⟩, ⟨"H2O", 4, some "c1"⟩]) :=
  (mline_reuses_cooling_id (fun a b _ => a == b) "c1" "n" ([] : MlDb Nat)
    [⟨"CO", 3, none⟩, ⟨"H2O", 4, none⟩] rfl).trans (by decide)

/-! ### C3: the lookups are not all side-effect-free -/

/-- C3 counterexample: a bare `checkMlineDatabase` call on a store lacking
the cooling id adds keys to the store (the nested
`model_id -> model_id -> {}` entry), so a lookup alone does mutate the
persisted mline store, contradicting the claim. -/
theorem mline_lookup_mutates_store_ce :
    (checkMlineDatabase (fun a b _ => a == b) "c1" "n" ([] : MlDb Nat)
        [⟨"CO", 3, none⟩]).1.ml_db ≠ ([] : MlDb Nat) := by
  decide

/-- C3 amended: the cooling lookup, with replace mode off, really is free of
side effects: it changes none of the stores (in memory or on disk).  The
mline and sphinx lookups do mutate their stores during the check. -/
theorem cooling_lookup_is_pure (p : C → Bool) (ne : List String)
    (st : CoolState C) :
    (checkCoolingDatabase p false ne st).2.cool_db = st.cool_db ∧
    (checkCoolingDatabase p false ne st).2.cool_disk = st.cool_disk ∧
    (checkCoolingDatabase p false ne st).2.ml_db = st.ml_db ∧
    (checkCoolingDatabase p false ne st).2.sph_db = st.sph_db := by
  unfold checkCoolingDatabase
  cases h : coolScan p st.cool_db with
  | none => simp
  | some kv =>
    cases kv
    simp

/-! ### C7: a failed cooling run leaves no entry -/

/-- C7 counterexample: with replace mode on, a request whose cooling run
fails can still have removed a matched entry during the lookup, so the
database is not always left unchanged by a failing request. -/
theorem cooling_failed_replace_mutates_ce :
    (doCooling (fun c => c == (1 : Nat)) true [] false false 7
        ⟨"x", [("c0", 1)], [("c0", 1)], [], []⟩).1.cool_db ≠ [("c0", 1)] ∧
    (doCooling (fun c => c == (1 : Nat)) true [] false false 7
        ⟨"x", [("c0", 1)], [("c0", 1)], [], []⟩).1.cool_disk ≠ [("c0", 1)] := by
  decide

/-- C7 amended: when the check reports a miss (so a run is attempted) and the
expected `coolfgr_all<id>.dat` output is absent, with replace mode off no
entry is added to the cooling database, every store (including the on-disk
copy) is exactly as before the request, and the session's model id becomes
the empty string, so the following stages see no cooling model. -/
theorem cooling_failed_run_no_entry (p : C → Bool) (ne : List String)
    (skip : Bool) (cfg : C) (st : CoolState C)
    (hmiss : (checkCoolingDatabase p false ne st).1 = false) :
    (doCooling p false ne skip false cfg st).1.model_id = "" ∧
    (doCooling p false ne skip false cfg st).1.cool_db = st.cool_db ∧
    (doCooling p false ne skip false cfg st).1.cool_disk = st.cool_disk ∧
    (doCooling p false ne skip false cfg st).1.ml_db = st.ml_db ∧
    (doCooling p false ne skip false cfg st).1.sph_db = st.sph_db := by
  unfold doCooling
  unfold checkCoolingDatabase at hmiss ⊢
  cases h : coolScan p st.cool_db with
  | none => simp [h]
  | some kv =>
    cases kv
    rw [h] at hmiss
    simp at hmiss

theorem cooling_failed_run_no_entry_w :
    (checkCoolingDatabase (fun c => c == (1 : Nat)) false []
        ⟨"x", [("c0", 2)], [("c0", 2)], [], []⟩).1 = false ∧
    ((doCooling (fun c => c == (1 : Nat)) false [] false false 7
        ⟨"x", [("c0", 2)], [("c0", 2)], [], []⟩).1.model_id = "" ∧
     (doCooling (fun c => c == (1 : Nat)) false [] false false 7
        ⟨"x", [("c0", 2)], [("c0", 2)], [], []⟩).1.cool_db = [("c0", 2)] ∧
     (doCooling (fun c => c == (1 : Nat)) false [] false false 7
        ⟨"x", [("c0", 2)], [("c0", 2)], [], []⟩).1.cool_disk = [("c0", 2)] ∧
     (doCooling (fun c => c == (1 : Nat)) false [] false false 7
        ⟨"x", [("c0", 2)], [("c0", 2)], [], []⟩).1.ml_db = [] ∧
     (doCooling (fun c => c == (1 : Nat)) false [] false false 7
        ⟨"x", [("c0", 2)], [("c0", 2)], [], []⟩).1.sph_db = []) :=
  ⟨by decide, cooling_failed_run_no_entry _ _ _ _ _ (by decide)⟩

/-! ### C9: sphinx output success is decided by the file count -/

/-- C9: success of a sphinx run is decided solely by the output-file count
being exactly two.  On success the leaf loses its `IN_PROGRESS` flag but is
kept (and the transition keeps its id); on any other count the single
`(trans_id, signature)` leaf is deleted and the transition's model id is set
to the empty string; leaves of other signatures are untouched either way. -/
theorem sphinx_output_two_files (nglob : Nat) (model_id : String)
    (db : SphDb C) (t : TransT C) (e : TransEntry C)
    (hleaf : sphinxLeaf model_id db t = some e) :
    (nglob = 2 →
        (checkSphinxOutput nglob model_id db t).2 = t ∧
        sphinxLeaf model_id (checkSphinxOutput nglob model_id db t).1 t
          = some ⟨e.cfg, false⟩) ∧
    (nglob ≠ 2 →
        (checkSphinxOutput nglob model_id db t).2 = { t with mid := some "" } ∧
        sphinxLeaf model_id (checkSphinxOutput nglob model_id db t).1 t
          = none) ∧
    (∀ sig2, sig2 ≠ t.sig →
        sphinxLeaf model_id (checkSphinxOutput nglob model_id db t).1
            { t with sig := sig2 }
          = sphinxLeaf model_id db { t with sig := sig2 }) := by
  unfold sphinxLeaf at hleaf
  cases h1 : lookupKey model_id db with
  | none => rw [h1] at hleaf; simp at hleaf
  | some msub =>
  rw [h1] at hleaf
  simp only [Option.some_bind] at hleaf
  cases h2 : lookupKey t.molecId msub with
  | none => rw [h2] at hleaf; simp at hleaf
  | some sub =>
  rw [h2] at hleaf
  simp only [Option.some_bind] at hleaf
  cases h3 : lookupKey (t.mid.getD "") sub with
  | none => rw [h3] at hleaf; simp at hleaf
  | some sigd =>
  rw [h3] at hleaf
  simp only [Option.some_bind] at hleaf
  refine ⟨?_, ?_, ?_⟩
  · intro hn2
    subst hn2
    refine ⟨by simp [checkSphinxOutput], ?_⟩
    simp [checkSphinxOutput, sphinxLeaf, lookupKey_modifyKey_self,
          h1, h2, h3, hleaf]
  · intro hn2
    refine ⟨by simp [checkSphinxOutput, beq_iff_eq, hn2], ?_⟩
    simp [checkSphinxOutput, sphinxLeaf, beq_iff_eq, hn2,
          lookupKey_modifyKey_self, h1, h2, h3, lookupKey_eraseKey_self]
  · intro sig2 hsig
    by_cases hn2 : nglob = 2
    · subst hn2
      simp [checkSphinxOutput, sphinxLeaf, lookupKey_modifyKey_self,
            h1, h2, h3, lookupKey_modifyKey_ne _ _ hsig]
    · simp [checkSphinxOutput, sphinxLeaf, beq_iff_eq, hn2,
            lookupKey_modifyKey_self, h1, h2, h3,
            lookupKey_eraseKey_ne _ hsig]

theorem sphinx_output_two_files_w :
    sphinxLeaf "c1" [("c1", [("m1", [("t1", [("sig", ⟨(9 : Nat), true⟩)])])])]
        ⟨"sig", "CO", "m1", 9, some "t1"⟩ = some ⟨9, true⟩ ∧
    ((2 = 2 →
        (checkSphinxOutput 2 "c1"
            [("c1", [("m1", [("t1", [("sig", ⟨(9 : Nat), true⟩)])])])]
            ⟨"sig", "CO", "m1", 9, some "t1"⟩).2
          = ⟨"sig", "CO", "m1", 9, some "t1"⟩ ∧
        sphinxLeaf "c1"
            (checkSphinxOutput 2 "c1"
              [("c1", [("m1", [("t1", [("sig", ⟨(9 : Nat), true⟩)])])])]
              ⟨"sig", "CO", "m1", 9, some "t1"⟩).1
            ⟨"sig", "CO", "m1", 9, some "t1"⟩ = some ⟨9, false⟩) ∧
      (2 ≠ 2 →
        (checkSphinxOutput 2 "c1"
            [("c1", [("m1", [("t1", [("sig", ⟨(9 : Nat), true⟩)])])])]
            ⟨"sig", "CO", "m1", 9, some "t1"⟩).2
          = ⟨"sig", "CO", "m1", 9, some ""⟩ ∧
        sphinxLeaf "c1"
            (checkSphinxOutput 2 "c1"
              [("c1", [("m1", [("t1", [("sig", ⟨(9 : Nat), true⟩)])])])]
              ⟨"sig", "CO", "m1", 9, some "t1"⟩).1
            ⟨"sig", "CO", "m1", 9, some "t1"⟩ = none) ∧
      (∀ sig2, sig2 ≠ "sig" →
        sphinxLeaf "c1"
            (checkSphinxOutput 2 "c1"
              [("c1", [("m1", [("t1", [("sig", ⟨(9 : Nat), true⟩)])])])]
              ⟨"sig", "CO", "m1", 9, some "t1"⟩).1
            ⟨sig2, "CO", "m1", 9, some "t1"⟩
          = sphinxLeaf "c1"
              [("c1", [("m1", [("t1", [("sig", ⟨(9 : Nat), true⟩)])])])]
              ⟨sig2, "CO", "m1", 9, some "t1"⟩)) :=
  ⟨by decide,
   sphinx_output_two_files 2 "c1"
     [("c1", [("m1", [("t1", [("sig", ⟨(9 : Nat), true⟩)])])])]
     ⟨"sig", "CO", "m1", 9, some "t1"⟩ ⟨9, true⟩ (by decide)⟩

theorem doCooling_noreplace_hit {p : C → Bool} {ne : List String}
    {skip ok : Bool} {cfg : C} {st : CoolState C} {k0 : String} {c0 : C}
    (hscan : coolScan p st.cool_db = some (k0, c0)) :
    doCooling p false ne skip ok cfg st = ({ st with model_id := k0 }, 0) := by
  unfold doCooling checkCoolingDatabase
  rw [hscan]
  simp

theorem doCooling_noreplace_miss_ok {p : C → Bool} {ne : List String}
    {skip : Bool} {cfg : C} {st : CoolState C}
    (hscan : coolScan p st.cool_db = none) :
    doCooling p false ne skip true cfg st =
      ({ st with cool_db := setKey st.model_id cfg st.cool_db,
                 cool_disk := setKey st.model_id cfg st.cool_db },
       if skip then 0 else 1) := by
  unfold doCooling checkCoolingDatabase
  rw [hscan]
  simp

/-! ### C4: the cooling lookup returns the first match in ascending order -/

/-- C4: when the cooling store contains a matching entry and replace mode is
off, the lookup reports a hit, the adopted identifier is a matching one, and
it is the smallest matching identifier in the ascending key order of
`sorted(cool_db.items())`. -/
theorem cooling_first_match_ascending (p : C → Bool) (ne : List String)
    (st : CoolState C) (k : String) (c : C)
    (hmem : (k, c) ∈ st.cool_db) (hp : p c = true) :
    (checkCoolingDatabase p false ne st).1 = true ∧
    (∃ c2, ((checkCoolingDatabase p false ne st).2.model_id, c2) ∈ st.cool_db
        ∧ p c2 = true) ∧
    (∀ k2 c2, (k2, c2) ∈ st.cool_db → p c2 = true →
        strLe (checkCoolingDatabase p false ne st).2.model_id k2 = true) := by
  cases hscan : coolScan p st.cool_db with
  | none =>
      exact absurd hp
        (by simpa using coolScan_eq_none_iff.mp hscan (k, c) hmem)
  | some y =>
      obtain ⟨k0, c0⟩ := y
      have hscan2 := hscan
      unfold coolScan at hscan2
      have hpy : p c0 = true := by simpa using List.find?_some hscan2
      have hymem : (k0, c0) ∈ st.cool_db :=
        mem_sortPairs.mp (List.mem_of_find?_eq_some hscan2)
      have hmin := find?_key_min (sortPairs_pairwise st.cool_db) hscan2
      have hck : checkCoolingDatabase p false ne st
          = (true, { st with model_id := k0 }) := by
        unfold checkCoolingDatabase
        rw [hscan]
        simp
      rw [hck]
      refine ⟨rfl, ⟨c0, hymem, hpy⟩, ?_⟩
      intro k2 c2 hm2 hp2
      exact hmin (k2, c2) (mem_sortPairs.mpr hm2) hp2

theorem cooling_first_match_ascending_w :
    ("b", (7 : Nat)) ∈ [("b", (7 : Nat)), ("a", 7), ("c", 3)] ∧
    ((7 : Nat) == 7) = true ∧
    ((checkCoolingDatabase (fun c => c == (7 : Nat)) false []
        ⟨"x", [("b", 7), ("a", 7), ("c", 3)], [], [], []⟩).1 = true ∧
     (∃ c2, ((checkCoolingDatabase (fun c => c == (7 : Nat)) false []
          ⟨"x", [("b", 7), ("a", 7), ("c", 3)], [], [], []⟩).2.model_id, c2)
            ∈ [("b", (7 : Nat)), ("a", 7), ("c", 3)] ∧ (c2 == 7) = true) ∧
     (∀ k2 c2, (k2, c2) ∈ [("b", (7 : Nat)), ("a", 7), ("c", 3)] →
        (c2 == 7) = true →
        strLe (checkCoolingDatabase (fun c => c == (7 : Nat)) false []
            ⟨"x", [("b", 7), ("a", 7), ("c", 3)], [], [], []⟩).2.model_id k2
          = true)) :=
  ⟨by decide, by decide,
   cooling_first_match_ascending (fun c => c == (7 : Nat)) []
     ⟨"x", [("b", 7), ("a", 7), ("c", 3)], [], [], []⟩ "b" 7
     (by decide) (by decide)⟩

/-! ### C1: a repeated request reuses the identifier, with no solver run -/

/-- C1: with replace mode off, issuing the same configuration request twice
in sequence makes the second request adopt exactly the identifier of the
first (the database check reports the hit), perform zero `execGastronoom`
invocations, and leave the cooling store unchanged.  `hmatch` states that the
comparison accepts the dict that a successful run stores for this
configuration (the two requests differ only in ignored run-identity keys). -/
theorem cooling_request_idempotent (p : C → Bool) (ne : List String)
    (cfg cfg2 : C) (id1 id2 : String) (st : CoolState C)
    (hmatch : p cfg = true) :
    ((requestCooling p false ne false true cfg2 id2
        (requestCooling p false ne false true cfg id1 st).1).1.model_id
      = (requestCooling p false ne false true cfg id1 st).1.model_id) ∧
    ((requestCooling p false ne false true cfg2 id2
        (requestCooling p false ne false true cfg id1 st).1).2 = 0) ∧
    ((requestCooling p false ne false true cfg2 id2
        (requestCooling p false ne false true cfg id1 st).1).1.cool_db
      = (requestCooling p false ne false true cfg id1 st).1.cool_db) := by
  cases hscan : coolScan p st.cool_db with
  | some y =>
      obtain ⟨k0, c0⟩ := y
      have h1 : requestCooling p false ne false true cfg id1 st
          = ({ st with model_id := k0 }, 0) := by
        unfold requestCooling
        exact doCooling_noreplace_hit hscan
      have h2 : requestCooling p false ne false true cfg2 id2
            ({ st with model_id := k0 } : CoolState C)
          = ({ st with model_id := k0 }, 0) := by
        unfold requestCooling
        exact doCooling_noreplace_hit hscan
      rw [h1, h2]
      exact ⟨rfl, rfl, rfl⟩
  | none =>
      have h1 : requestCooling p false ne false true cfg id1 st
          = ({ st with model_id := id1,
                       cool_db := setKey id1 cfg st.cool_db,
                       cool_disk := setKey id1 cfg st.cool_db }, 1) := by
        unfold requestCooling
        exact doCooling_noreplace_miss_ok hscan
      have hscan2 : coolScan p (setKey id1 cfg st.cool_db)
          = some (id1, cfg) := coolScan_setKey_of_none id1 cfg hscan hmatch
      have h2 : requestCooling p false ne false true cfg2 id2
            ({ st with model_id := id1,
                       cool_db := setKey id1 cfg st.cool_db,
                       cool_disk := setKey id1 cfg st.cool_db } : CoolState C)
          = ({ st with model_id := id1,
                       cool_db := setKey id1 cfg st.cool_db,
                       cool_disk := setKey id1 cfg st.cool_db }, 0) := by
        unfold requestCooling
        exact doCooling_noreplace_hit hscan2
      rw [h1, h2]
      exact ⟨rfl, rfl, rfl⟩

theorem cooling_request_idempotent_w :
    (((5 : Nat) == 5) = true) ∧
    (((requestCooling (fun c => c == (5 : Nat)) false [] false true 5 "m2"
        (requestCooling (fun c => c == (5 : Nat)) false [] false true 5 "m1"
          ⟨"", [], [], [], []⟩).1).1.model_id
      = (requestCooling (fun c => c == (5 : Nat)) false [] false true 5 "m1"
          ⟨"", [], [], [], []⟩).1.model_id) ∧
     ((requestCooling (fun c => c == (5 : Nat)) false [] false true 5 "m2"
        (requestCooling (fun c => c == (5 : Nat)) false [] false true 5 "m1"
          ⟨"", [], [], [], []⟩).1).2 = 0) ∧
     ((requestCooling (fun c => c == (5 : Nat)) false [] false true 5 "m2"
        (requestCooling (fun c => c == (5 : Nat)) false [] false true 5 "m1"
          ⟨"", [], [], [], []⟩).1).1.cool_db
      = (requestCooling (fun c => c == (5 : Nat)) false [] false true 5 "m1"
          ⟨"", [], [], [], []⟩).1.cool_db)) :=
  ⟨by decide,
   cooling_request_idempotent (fun c => c == (5 : Nat)) [] 5 5 "m1" "m2"
     ⟨"", [], [], [], []⟩ (by decide)⟩

/-! ### C2: replace mode cascades the invalidation -/

/-- C2: in replace mode, when the cooling scan finds a match whose id is not
protected by `new_entries`, the check deletes that cooling id from the
cooling store (memory and disk) and from the mline and sphinx stores —
removing every node nested under it, with missing nested stores tolerated —
and reports a miss, so the caller allocates a fresh id; afterwards an mline
lookup under the deleted cooling id reports a miss for every molecule. -/
theorem replace_invalidation_cascades (p : C → Bool) (ne : List String)
    (st : CoolState C) (k : String) (c : C)
    (hscan : coolScan p st.cool_db = some (k, c))
    (hk : k ∉ ne) :
    (checkCoolingDatabase p true ne st).1 = false ∧
    lookupKey k (checkCoolingDatabase p true ne st).2.cool_db = none ∧
    lookupKey k (checkCoolingDatabase p true ne st).2.cool_disk = none ∧
    lookupKey k (checkCoolingDatabase p true ne st).2.ml_db = none ∧
    lookupKey k (checkCoolingDatabase p true ne st).2.sph_db = none ∧
    (∀ (mm : C → C → Bool → Bool) (mkId : String) (molecs : List (Molec C)),
        (checkMlineDatabase mm k mkId
            (checkCoolingDatabase p true ne st).2.ml_db molecs).1.bools
          = List.replicate molecs.length false) := by
  have hck : checkCoolingDatabase p true ne st
      = (false, deleteCoolingId k st) := by
    unfold checkCoolingDatabase
    rw [hscan]
    simp [hk]
  rw [hck]
  refine ⟨rfl, lookupKey_eraseKey_self k st.cool_db,
          lookupKey_eraseKey_self k st.cool_disk,
          lookupKey_eraseKey_self k st.ml_db,
          lookupKey_eraseKey_self k st.sph_db, ?_⟩
  intro mm mkId molecs
  unfold checkMlineDatabase
  simp [hasKey, deleteCoolingId, lookupKey_eraseKey_self]

theorem replace_invalidation_cascades_w :
    coolScan (fun c => c == (7 : Nat))
        [("a", 7)] = some ("a", 7) ∧
    ("a" ∉ ([] : List String)) ∧
    ((checkCoolingDatabase (fun c => c == (7 : Nat)) true []
        ⟨"x", [("a", 7)], [("a", 7)], [("a", [("a", [("CO", 1)])])],
          [("a", [("a", [("a", [("s", ⟨2, true⟩)])])])]⟩).1 = false ∧
     lookupKey "a" (checkCoolingDatabase (fun c => c == (7 : Nat)) true []
        ⟨"x", [("a", 7)], [("a", 7)], [("a", [("a", [("CO", 1)])])],
          [("a", [("a", [("a", [("s", ⟨2, true⟩)])])])]⟩).2.cool_db = none ∧
     lookupKey "a" (checkCoolingDatabase (fun c => c == (7 : Nat)) true []
        ⟨"x", [("a", 7)], [("a", 7)], [("a", [("a", [("CO", 1)])])],
          [("a", [("a", [("a", [("s", ⟨2, true⟩)])])])]⟩).2.cool_disk = none ∧
     lookupKey "a" (checkCoolingDatabase (fun c => c == (7 : Nat)) true []
        ⟨"x", [("a", 7)], [("a", 7)], [("a", [("a", [("CO", 1)])])],
          [("a", [("a", [("a", [("s", ⟨2, true⟩)])])])]⟩).2.ml_db = none ∧
     lookupKey "a" (checkCoolingDatabase (fun c => c == (7 : Nat)) true []
        ⟨"x", [("a", 7)], [("a", 7)], [("a", [("a", [("CO", 1)])])],
          [("a", [("a", [("a", [("s", ⟨2, true⟩)])])])]⟩).2.sph_db = none ∧
     (∀ (mm : Nat → Nat → Bool → Bool) (mkId : String)
        (molecs : List (Molec Nat)),
        (checkMlineDatabase mm "a" mkId
            (checkCoolingDatabase (fun c => c == (7 : Nat)) true []
              ⟨"x", [("a", 7)], [("a", 7)], [("a", [("a", [("CO", 1)])])],
                [("a", [("a", [("a", [("s", ⟨2, true⟩)])])])]⟩).2.ml_db
            molecs).1.bools
          = List.replicate molecs.length false)) :=
  ⟨by decide, by decide,
   replace_invalidation_cascades (fun c => c == (7 : Nat)) []
     ⟨"x", [("a", 7)], [("a", 7)], [("a", [("a", [("CO", 1)])])],
       [("a", [("a", [("a", [("s", ⟨2, true⟩)])])])]⟩ "a" 7
     (by decide) (by decide)⟩

/-! ### C5: the in-progress protocol for sphinx leaves -/

/-- C5: when the sphinx store holds a leaf for the requested signature whose
config matches and which carries the `IN_PROGRESS` flag, a second request for
that signature adopts the stored trans id and is recorded as in progress —
queued with the vic manager when one is attached, otherwise appended to the
session's `trans_in_progress` — it is marked found (`trans_bools` gains
`True`) so `doSphinx` triggers no duplicate local run for it, the store is
untouched, and at finalization the still-flagged transition has its model id
reset to the empty string. -/
theorem sphinx_in_progress_protocol (ms : C → C → Bool) (vic : Bool)
    (model_id mkId : String) (st : SphState C) (t : TransT C)
    (msub : MolSub C) (sub : TransSub C) (trans_id : String)
    (e : TransEntry C)
    (hm : t.molecId ≠ "")
    (h1 : lookupKey model_id st.sph_db = some msub)
    (h2 : lookupKey t.molecId msub = some sub)
    (hscan : sphinxScan ms t.sig t.cfg sub = some (trans_id, e))
    (hip : e.inprog = true)
    (hnd : (sub.map Prod.fst).Nodup) :
    ((sphinxStep ms vic model_id mkId st t).2.mid = some trans_id) ∧
    ((sphinxStep ms vic model_id mkId st t).1.bools = st.bools ++ [true]) ∧
    ((sphinxStep ms vic model_id mkId st t).1.sph_db = st.sph_db) ∧
    (vic = true →
      (sphinxStep ms vic model_id mkId st t).1.vicq
          = st.vicq ++ [(sphinxStep ms vic model_id mkId st t).2] ∧
      (sphinxStep ms vic model_id mkId st t).1.tip = st.tip) ∧
    (vic = false →
      (sphinxStep ms vic model_id mkId st t).1.tip
          = st.tip ++ [(sphinxStep ms vic model_id mkId st t).2] ∧
      (sphinxStep ms vic model_id mkId st t).1.vicq = st.vicq) ∧
    (sphinxRunsLocally true false false true
        (sphinxStep ms vic model_id mkId st t).2 = false) ∧
    ((finalizeTransInProgress model_id
        (sphinxStep ms vic model_id mkId st t).1.sph_db
        (sphinxStep ms vic model_id mkId st t).2).mid = some "") := by
  have hstep : sphinxStep ms vic model_id mkId st t
      = (if vic then
           { st with bools := st.bools ++ [true],
                     vicq := st.vicq ++ [{ t with mid := some trans_id }] }
         else
           { st with bools := st.bools ++ [true],
                     tip := st.tip ++ [{ t with mid := some trans_id }] },
         { t with mid := some trans_id }) := by
    cases vic <;> simp [sphinxStep, hm, h1, h2, hscan, hip, hasKey]
  have hleaf : sphinxLeaf model_id st.sph_db { t with mid := some trans_id }
      = some e := by
    obtain ⟨hms, sigd, hsigd_mem, hsig⟩ := sphinxScan_mem hscan
    have hsl : lookupKey trans_id sub = some sigd :=
      lookupKey_eq_some_of_mem_nodup hnd hsigd_mem
    simp [sphinxLeaf, h1, h2, hsl, hsig]
  rw [hstep]
  cases vic with
  | true =>
      refine ⟨rfl, by simp, by simp, fun _ => ⟨by simp, by simp⟩,
              fun h => by simp at h, by simp [sphinxRunsLocally], ?_⟩
      simp only [if_true]
      simp [finalizeTransInProgress, hleaf, hip]
  | false =>
      refine ⟨rfl, by simp, by simp, fun h => by simp at h,
              fun _ => ⟨by simp, by simp⟩, by simp [sphinxRunsLocally], ?_⟩
      simp only [if_false]
      simp [finalizeTransInProgress, hleaf, hip]

theorem sphinx_in_progress_protocol_w :
    ("m1" : String) ≠ "" ∧
    lookupKey "c1"
        ([("c1", [("m1", [("t1", [("sig", ⟨(9 : Nat), true⟩)])])])] :
          SphDb Nat)
      = some [("m1", [("t1", [("sig", ⟨9, true⟩)])])] ∧
    lookupKey "m1"
        ([("m1", [("t1", [("sig", ⟨(9 : Nat), true⟩)])])] : MolSub Nat)
      = some [("t1", [("sig", ⟨9, true⟩)])] ∧
    sphinxScan (fun a b => a == b) "sig" (9 : Nat)
        [("t1", [("sig", ⟨9, true⟩)])] = some ("t1", ⟨9, true⟩) ∧
    (⟨(9 : Nat), true⟩ : TransEntry Nat).inprog = true ∧
    (([("t1", [("sig", ⟨(9 : Nat), true⟩)])] :
        TransSub Nat).map Prod.fst).Nodup ∧
    (((sphinxStep (fun a b => a == b) false "c1" "new"
        ⟨[("c1", [("m1", [("t1", [("sig", ⟨(9 : Nat), true⟩)])])])],
          [], [], [], "", 0⟩
        ⟨"sig", "CO", "m1", 9, none⟩).2.mid = some "t1") ∧
     ((sphinxStep (fun a b => a == b) false "c1" "new"
        ⟨[("c1", [("m1", [("t1", [("sig", ⟨(9 : Nat), true⟩)])])])],
          [], [], [], "", 0⟩
        ⟨"sig", "CO", "m1", 9, none⟩).1.bools = [] ++ [true]) ∧
     ((sphinxStep (fun a b => a == b) false "c1" "new"
        ⟨[("c1", [("m1", [("t1", [("sig", ⟨(9 : Nat), true⟩)])])])],
          [], [], [], "", 0⟩
        ⟨"sig", "CO", "m1", 9, none⟩).1.sph_db
       = [("c1", [("m1", [("t1", [("sig", ⟨9, true⟩)])])])]) ∧
     (false = true →
       (sphinxStep (fun a b => a == b) false "c1" "new"
          ⟨[("c1", [("m1", [("t1", [("sig", ⟨(9 : Nat), true⟩)])])])],
            [], [], [], "", 0⟩
          ⟨"sig", "CO", "m1", 9, none⟩).1.vicq
         = [] ++ [(sphinxStep (fun a b => a == b) false "c1" "new"
            ⟨[("c1", [("m1", [("t1", [("sig", ⟨(9 : Nat), true⟩)])])])],
              [], [], [], "", 0⟩
            ⟨"sig", "CO", "m1", 9, none⟩).2] ∧
       (sphinxStep (fun a b => a == b) false "c1" "new"
          ⟨[("c1", [("m1", [("t1", [("sig", ⟨(9 : Nat), true⟩)])])])],
            [], [], [], "", 0⟩
          ⟨"sig", "CO", "m1", 9, none⟩).1.tip = []) ∧
     (false = false →
       (sphinxStep (fun a b => a == b) false "c1" "new"
          ⟨[("c1", [("m1", [("t1", [("sig", ⟨(9 : Nat), true⟩)])])])],
            [], [], [], "", 0⟩
          ⟨"sig", "CO", "m1", 9, none⟩).1.tip
         = [] ++ [(sphinxStep (fun a b => a == b) false "c1" "new"
            ⟨[("c1", [("m1", [("t1", [("sig", ⟨(9 : Nat), true⟩)])])])],
              [], [], [], "", 0⟩
            ⟨"sig", "CO", "m1", 9, none⟩).2] ∧
       (sphinxStep (fun a b => a == b) false "c1" "new"
          ⟨[("c1", [("m1", [("t1", [("sig", ⟨(9 : Nat), true⟩)])])])],
            [], [], [], "", 0⟩
          ⟨"sig", "CO", "m1", 9, none⟩).1.vicq = []) ∧
     (sphinxRunsLocally true false false true
        (sphinxStep (fun a b => a == b) false "c1" "new"
          ⟨[("c1", [("m1", [("t1", [("sig", ⟨(9 : Nat), true⟩)])])])],
            [], [], [], "", 0⟩
          ⟨"sig", "CO", "m1", 9, none⟩).2 = false) ∧
     ((finalizeTransInProgress "c1"
        (sphinxStep (fun a b => a == b) false "c1" "new"
          ⟨[("c1", [("m1", [("t1", [("sig", ⟨(9 : Nat), true⟩)])])])],
            [], [], [], "", 0⟩
          ⟨"sig", "CO", "m1", 9, none⟩).1.sph_db
        (sphinxStep (fun a b => a == b) false "c1" "new"
          ⟨[("c1", [("m1", [("t1", [("sig", ⟨(9 : Nat), true⟩)])])])],
            [], [], [], "", 0⟩
          ⟨"sig", "CO", "m1", 9, none⟩).2).mid = some "")) :=
  ⟨by decide, by decide, by decide, by decide, by decide, by decide,
   sphinx_in_progress_protocol (fun a b => a == b) false "c1" "new"
     ⟨[("c1", [("m1", [("t1", [("sig", ⟨(9 : Nat), true⟩)])])])],
       [], [], [], "", 0⟩
     ⟨"sig", "CO", "m1", 9, none⟩
     [("m1", [("t1", [("sig", ⟨9, true⟩)])])]
     [("t1", [("sig", ⟨9, true⟩)])] "t1" ⟨9, true⟩
     (by decide) (by decide) (by decide) (by decide) (by decide) (by decide)⟩

theorem mlineStep_alloc (mm : C → C → Bool → Bool) (model_id mkId : String)
    (st : MlState C) (m : Molec C) :
    ((mlineStep mm model_id mkId st m).1.newMolecId = st.newMolecId ∧
      (mlineStep mm model_id mkId st m).1.allocs = st.allocs) ∨
    (st.newMolecId = "" ∧
      (mlineStep mm model_id mkId st m).1.newMolecId = mkId ∧
      (mlineStep mm model_id mkId st m).1.allocs = st.allocs + 1) := by
  unfold mlineStep
  dsimp only
  cases hsc : mlineScan mm m.molecule m.cfg
      ((lookupKey model_id st.ml_db).getD []) with
  | some mid => exact Or.inl ⟨rfl, rfl⟩
  | none =>
    by_cases hmid : m.mid = none
    · rw [if_neg (by simp [hmid])]
      dsimp only
      cases hfs : mlineFreeSlot m.molecule
          ((lookupKey model_id st.ml_db).getD []) with
      | some k => exact Or.inl ⟨rfl, rfl⟩
      | none =>
        by_cases hnm : st.newMolecId = ""
        · rw [if_pos hnm]
          exact Or.inr ⟨hnm, rfl, rfl⟩
        · rw [if_neg hnm]
          exact Or.inl ⟨rfl, rfl⟩
    · rw [if_pos hmid]
      exact Or.inl ⟨rfl, rfl⟩

theorem mlineSteps_allocs (mm : C → C → Bool → Bool) (model_id mkId : String)
    (hmk : mkId ≠ "") (ms : List (Molec C)) (st : MlState C) :
    (mlineSteps mm model_id mkId st ms).1.allocs
        + (if (mlineSteps mm model_id mkId st ms).1.newMolecId = ""
           then 1 else 0)
      = st.allocs + (if st.newMolecId = "" then 1 else 0) := by
  induction ms generalizing st with
  | nil => rfl
  | cons m ms ih =>
    simp only [mlineSteps]
    rw [ih]
    rcases mlineStep_alloc mm model_id mkId st m with ⟨h1, h2⟩ | ⟨h0, h1, h2⟩
    · rw [h1, h2]
    · rw [h1, h2, h0, if_pos rfl, if_neg hmk]

/-! ### C8: mline slot reuse and single fresh-id allocation -/

/-- C8: the mline lookup prefers reuse over allocation.  First conjunct: a
molecule with no matching stored config is assigned the first existing mline
id under the cooling id whose dict lacks the molecule, with nothing
allocated.  Second: over a whole check, `makeNewId` is called at most once.
Third: in a session where two fresh molecules both have no matching config
and no free slot exists initially, exactly one fresh id is created and both
molecules share it. -/
theorem mline_slot_reuse_single_new_id (mm : C → C → Bool → Bool)
    (model_id mkId : String) (ml_db : MlDb C) (sub : MlSub C)
    (m1 m2 : Molec C)
    (hmk : mkId ≠ "")
    (hsub : lookupKey model_id ml_db = some sub)
    (hm1 : m1.mid = none) (hm2 : m2.mid = none)
    (hall1 : ∀ kv ∈ sub, hasKey m1.molecule kv.2 = true)
    (hall2 : ∀ kv ∈ sub, hasKey m2.molecule kv.2 = true)
    (hno1 : mlineScan mm m1.molecule m1.cfg sub = none)
    (hno2 : mlineScan mm m2.molecule m2.cfg sub = none) :
    (∀ (st : MlState C) (m : Molec C) (k : String),
        m.mid = none →
        mlineScan mm m.molecule m.cfg
            ((lookupKey model_id st.ml_db).getD []) = none →
        mlineFreeSlot m.molecule
            ((lookupKey model_id st.ml_db).getD []) = some k →
        mlineStep mm model_id mkId st m
          = ({ st with bools := st.bools ++ [false] },
             { m with mid := some k })) ∧
    (∀ (db : MlDb C) (molecs : List (Molec C)),
        (checkMlineDatabase mm model_id mkId db molecs).1.allocs ≤ 1) ∧
    (checkMlineDatabase mm model_id mkId ml_db [m1, m2]
      = (⟨modifyKey model_id (setKey mkId []) ml_db, [false, false], mkId, 1⟩,
         [{ m1 with mid := some mkId }, { m2 with mid := some mkId }])) := by
  refine ⟨?_, ?_, ?_⟩
  · intro st m k hmid hsc hfs
    simp [mlineStep, hsc, hmid, hfs]
  · intro db molecs
    unfold checkMlineDatabase
    by_cases hdb : hasKey model_id db
    · rw [if_neg (by simp [hdb])]
      have h := mlineSteps_allocs mm model_id mkId hmk molecs
        ⟨db, [], "", 0⟩
      by_cases hn : (mlineSteps mm model_id mkId ⟨db, [], "", 0⟩
          molecs).1.newMolecId = ""
      · rw [if_pos hn] at h
        simp at h
        omega
      · rw [if_neg hn] at h
        simp at h
        omega
    · rw [if_pos (by simp [hdb])]
      exact Nat.zero_le 1
  · have hstep1 : mlineStep mm model_id mkId ⟨ml_db, [], "", 0⟩ m1
        = (⟨modifyKey model_id (setKey mkId []) ml_db, [false], mkId, 1⟩,
           { m1 with mid := some mkId }) := by
      unfold mlineStep
      simp only [hsub, Option.getD_some]
      rw [hno1, if_neg (by simp [hm1]), mlineFreeSlot_none_of hall1]
      simp
    have hsub2 : lookupKey model_id (modifyKey model_id (setKey mkId []) ml_db)
        = some (setKey mkId [] sub) := by
      rw [lookupKey_modifyKey_self, hsub]
      rfl
    have hno2b : mlineScan mm m2.molecule m2.cfg (setKey mkId [] sub)
        = none := by
      apply mlineScan_none_of
      intro kv hkv c hc
      rcases mem_setKey hkv with h | h
      · subst h
        simp [lookupKey_nil] at hc
      · exact of_mlineScan_none hno2 kv h c hc
    have hfs2 : mlineFreeSlot m2.molecule (setKey mkId [] sub)
        = some mkId := by
      unfold mlineFreeSlot
      have hfind : (sortPairs (setKey mkId [] sub)).find?
          (fun kv => !(hasKey m2.molecule kv.2)) = some (mkId, []) := by
        apply find?_eq_some_unique
          (mem_sortPairs.mpr (setKey_self_mem mkId [] sub))
        · rfl
        · intro x hx hpx
          rcases mem_setKey (mem_sortPairs.mp hx) with h | h
          · exact h
          · rw [hall2 x h] at hpx
            exact absurd hpx (by simp)
      rw [hfind]
      rfl
    have hstep2 : mlineStep mm model_id mkId
        ⟨modifyKey model_id (setKey mkId []) ml_db, [false], mkId, 1⟩ m2
        = (⟨modifyKey model_id (setKey mkId []) ml_db,
            [false, false], mkId, 1⟩,
           { m2 with mid := some mkId }) := by
      unfold mlineStep
      simp only [hsub2, Option.getD_some]
      rw [hno2b, if_neg (by simp [hm2]), hfs2]
      rfl
    unfold checkMlineDatabase
    rw [if_neg (by simp [hasKey, hsub])]
    simp only [mlineSteps, hstep1, hstep2]

theorem mline_slot_reuse_single_new_id_w :
    ("new" : String) ≠ "" ∧
    ((∀ (st : MlState Nat) (m : Molec Nat) (k : String),
        m.mid = none →
        mlineScan (fun a b _ => a == b) m.molecule m.cfg
            ((lookupKey "c1" st.ml_db).getD []) = none →
        mlineFreeSlot m.molecule
            ((lookupKey "c1" st.ml_db).getD []) = some k →
        mlineStep (fun a b _ => a == b) "c1" "new" st m
          = ({ st with bools := st.bools ++ [false] },
             { m with mid := some k })) ∧
     (∀ (db : MlDb Nat) (molecs : List (Molec Nat)),
        (checkMlineDatabase (fun a b _ => a == b) "c1" "new" db
            molecs).1.allocs ≤ 1) ∧
     (checkMlineDatabase (fun a b _ => a == b) "c1" "new"
          [("c1", [("c1", [("CO", 0), ("H2O", 0)])])]
          [⟨"CO", 3, none⟩, ⟨"H2O", 4, none⟩]
        = (⟨modifyKey "c1" (setKey "new" [])
              [("c1", [("c1", [("CO", 0), ("H2O", 0)])])],
            [false, false], "new", 1⟩,
           [⟨"CO", 3, some "new"⟩, ⟨"H2O", 4, some "new"⟩]))) :=
  ⟨by decide,
   mline_slot_reuse_single_new_id (fun a b _ => a == b) "c1" "new"
     [("c1", [("c1", [("CO", 0), ("H2O", 0)])])]
     [("c1", [("CO", 0), ("H2O", 0)])]
     ⟨"CO", 3, none⟩ ⟨"H2O", 4, none⟩
     (by decide) (by decide) rfl rfl (by decide) (by decide)
     (by decide) (by decide)⟩

theorem doMlineRuns_list (nfiles : String → String → Nat) (model_id : String)
    (acc : MlDb C × Nat) (mbs : List (Molec C × Bool)) :
    (doMlineRuns nfiles model_id acc mbs).2
      = mbs.map (fun mb =>
          if mb.2 then mb.1
          else if nfiles (mb.1.mid.getD "") mb.1.molecule = 3 then mb.1
          else { mb.1 with mid := some "" }) := by
  induction mbs generalizing acc with
  | nil => rfl
  | cons mb mbs ih =>
    simp only [doMlineRuns, List.map_cons]
    rw [ih]
    congr 1
    rcases mb with ⟨m, b⟩
    cases b
    · by_cases h : nfiles (m.mid.getD "") m.molecule = 3 <;>
        simp [doMlineRun, h]
    · simp [doMlineRun]

theorem doMlineRuns_db (nfiles : String → String → Nat) (model_id : String)
    (acc : MlDb C × Nat) (mbs : List (Molec C × Bool)) :
    (doMlineRuns nfiles model_id acc mbs).1.1
      = ((mbs.filter (fun mb => !mb.2 &&
            (nfiles (mb.1.mid.getD "") mb.1.molecule == 3))).foldl
          (fun db mb => modifyKey model_id
            (modifyKey (mb.1.mid.getD "") (setKey mb.1.molecule mb.1.cfg)) db)
          acc.1) := by
  induction mbs generalizing acc with
  | nil => rfl
  | cons mb mbs ih =>
    rcases mb with ⟨m, b⟩
    cases b
    · by_cases h : nfiles (m.mid.getD "") m.molecule = 3
      · simp only [doMlineRuns, List.filter_cons]
        rw [ih]
        simp [doMlineRun, h]
      · simp only [doMlineRuns, List.filter_cons]
        rw [ih]
        simp [doMlineRun, h]
    · simp only [doMlineRuns, List.filter_cons]
      rw [ih]
      simp [doMlineRun]

theorem doMlineRuns_execs (nfiles : String → String → Nat) (model_id : String)
    (acc : MlDb C × Nat) (mbs : List (Molec C × Bool)) :
    (doMlineRuns nfiles model_id acc mbs).1.2
      = acc.2 + mbs.countP (fun mb => !mb.2) := by
  induction mbs generalizing acc with
  | nil => simp [doMlineRuns]
  | cons mb mbs ih =>
    rcases mb with ⟨m, b⟩
    cases b
    · by_cases h : nfiles (m.mid.getD "") m.molecule = 3
      · simp only [doMlineRuns]
        rw [ih]
        simp [doMlineRun, h, List.countP_cons]
        omega
      · simp only [doMlineRuns]
        rw [ih]
        simp [doMlineRun, h, List.countP_cons]
        omega
    · simp only [doMlineRuns]
      rw [ih]
      simp [doMlineRun, List.countP_cons]

theorem sphinxSteps_length (ms2 : C → C → Bool) (vic : Bool)
    (model_id mkId : String) (st : SphState C) (ts : List (TransT C)) :
    (sphinxSteps ms2 vic model_id mkId st ts).2.length = ts.length := by
  induction ts generalizing st with
  | nil => rfl
  | cons t ts ih => simp [sphinxSteps, ih]

theorem empty_ids_cond (ms : List (Molec C)) :
    (!ms.isEmpty && ms.all (fun m => m.mid == some "")) = true
      ↔ (ms ≠ [] ∧ ∀ m ∈ ms, m.mid = some "") := by
  rw [Bool.and_eq_true]
  constructor
  · rintro ⟨h1, h2⟩
    refine ⟨?_, ?_⟩
    · intro hnil
      subst hnil
      simp at h1
    · intro m hm
      have := List.all_eq_true.mp h2 m hm
      simpa using this
  · rintro ⟨h1, h2⟩
    refine ⟨?_, ?_⟩
    · cases ms with
      | nil => exact absurd rfl h1
      | cons a l => rfl
    · exact List.all_eq_true.mpr (fun m hm => by simp [h2 m hm])

theorem doMline_clear_iff (ms : List (Molec C)) {model_id : String}
    (hmod : model_id ≠ "") :
    ((if !ms.isEmpty && ms.all (fun m => m.mid == some "")
      then "" else model_id) = "")
      ↔ (ms ≠ [] ∧ ∀ m ∈ ms, m.mid = some "") := by
  by_cases hc : (!ms.isEmpty && ms.all (fun m => m.mid == some "")) = true
  · rw [if_pos hc]
    exact iff_of_true rfl ((empty_ids_cond ms).mp hc)
  · rw [if_neg hc]
    exact iff_of_false hmod (fun hcon => hc ((empty_ids_cond ms).mpr hcon))

/-! ### C6: partial Stage B failure is contained -/

/-- C6: over a Stage B batch, molecules the check found keep their ids
untouched, a molecule that ran gets its dict stored exactly when its three
`ml*` output files exist and otherwise ends with the empty model id and no
store insertion (the final store is the check store with exactly the
successful runs folded in), each miss runs the solver exactly once, the
session's cooling model id is cleared precisely when the (nonempty) batch
ends with every id empty, and Stage C treats a transition whose molecule has
an empty id as an unresolvable miss with an empty id while still processing
every sibling transition. -/
theorem mline_partial_failure_independence (mm : C → C → Bool → Bool)
    (nfiles : String → String → Nat) (model_id mkId : String)
    (ml_db : MlDb C) (molecs : List (Molec C))
    (hmod : model_id ≠ "") :
    ((doMline mm nfiles model_id mkId ml_db molecs).2.2.1
      = ((checkMlineDatabase mm model_id mkId ml_db molecs).2.zip
          (checkMlineDatabase mm model_id mkId ml_db molecs).1.bools).map
          (fun mb =>
            if mb.2 then mb.1
            else if nfiles (mb.1.mid.getD "") mb.1.molecule = 3 then mb.1
            else { mb.1 with mid := some "" })) ∧
    ((doMline mm nfiles model_id mkId ml_db molecs).2.1
      = ((((checkMlineDatabase mm model_id mkId ml_db molecs).2.zip
            (checkMlineDatabase mm model_id mkId ml_db molecs).1.bools).filter
          (fun mb => !mb.2 &&
            (nfiles (mb.1.mid.getD "") mb.1.molecule == 3))).foldl
          (fun db mb => modifyKey model_id
            (modifyKey (mb.1.mid.getD "") (setKey mb.1.molecule mb.1.cfg)) db)
          (checkMlineDatabase mm model_id mkId ml_db molecs).1.ml_db)) ∧
    ((doMline mm nfiles model_id mkId ml_db molecs).2.2.2
      = ((checkMlineDatabase mm model_id mkId ml_db molecs).2.zip
          (checkMlineDatabase mm model_id mkId ml_db molecs).1.bools).countP
          (fun mb => !mb.2)) ∧
    ((doMline mm nfiles model_id mkId ml_db molecs).1 = "" ↔
      ((doMline mm nfiles model_id mkId ml_db molecs).2.2.1 ≠ [] ∧
       ∀ m ∈ (doMline mm nfiles model_id mkId ml_db molecs).2.2.1,
         m.mid = some "")) ∧
    (∀ (ms2 : C → C → Bool) (vic : Bool) (stS : SphState C) (t : TransT C),
        t.molecId = "" →
        sphinxStep ms2 vic model_id mkId stS t
          = ({ stS with bools := stS.bools ++ [false] },
             { t with mid := some "" })) ∧
    (∀ (ms2 : C → C → Bool) (vic : Bool) (stS : SphState C)
        (ts : List (TransT C)),
        (sphinxSteps ms2 vic model_id mkId stS ts).2.length = ts.length) := by
  refine ⟨?_, ?_, ?_, ?_, ?_, ?_⟩
  · simp only [doMline]
    exact doMlineRuns_list nfiles model_id _ _
  · simp only [doMline]
    exact doMlineRuns_db nfiles model_id _ _
  · simp only [doMline]
    simpa using doMlineRuns_execs nfiles model_id
      ((checkMlineDatabase mm model_id mkId ml_db molecs).1.ml_db, 0)
      ((checkMlineDatabase mm model_id mkId ml_db molecs).2.zip
        (checkMlineDatabase mm model_id mkId ml_db molecs).1.bools)
  · simp only [doMline]
    exact doMline_clear_iff _ hmod
  · intro ms2 vic stS t h
    simp [sphinxStep, h]
  · intro ms2 vic stS ts
    exact sphinxSteps_length ms2 vic model_id mkId stS ts

theorem mline_partial_failure_independence_w :
    ("c1" : String) ≠ "" ∧
    (
    ((doMline (fun a b _ => a == b : Nat → Nat → Bool → Bool) (fun _ name => if name = "CO" then 3 else 0 : String → String → Nat) "c1" "new" ([("c1", [("c1", [])])] : MlDb Nat) ([⟨"CO", 3, none⟩, ⟨"H2O", 4, none⟩] : List (Molec Nat))).2.2.1
      = ((checkMlineDatabase (fun a b _ => a == b : Nat → Nat → Bool → Bool) "c1" "new" ([("c1", [("c1", [])])] : MlDb Nat) ([⟨"CO", 3, none⟩, ⟨"H2O", 4, none⟩] : List (Molec Nat))).2.zip
          (checkMlineDatabase (fun a b _ => a == b : Nat → Nat → Bool → Bool) "c1" "new" ([("c1", [("c1", [])])] : MlDb Nat) ([⟨"CO", 3, none⟩, ⟨"H2O", 4, none⟩] : List (Molec Nat))).1.bools).map
          (fun mb =>
            if mb.2 then mb.1
            else if (fun _ name => if name = "CO" then 3 else 0 : String → String → Nat) (mb.1.mid.getD "") mb.1.molecule = 3 then mb.1
            else { mb.1 with mid := some "" })) ∧
    ((doMline (fun a b _ => a == b : Nat → Nat → Bool → Bool) (fun _ name => if name = "CO" then 3 else 0 : String → String → Nat) "c1" "new" ([("c1", [("c1", [])])] : MlDb Nat) ([⟨"CO", 3, none⟩, ⟨"H2O", 4, none⟩] : List (Molec Nat))).2.1
      = ((((checkMlineDatabase (fun a b _ => a == b : Nat → Nat → Bool → Bool) "c1" "new" ([("c1", [("c1", [])])] : MlDb Nat) ([⟨"CO", 3, none⟩, ⟨"H2O", 4, none⟩] : List (Molec Nat))).2.zip
            (checkMlineDatabase (fun a b _ => a == b : Nat → Nat → Bool → Bool) "c1" "new" ([("c1", [("c1", [])])] : MlDb Nat) ([⟨"CO", 3, none⟩, ⟨"H2O", 4, none⟩] : List (Molec Nat))).1.bools).filter
          (fun mb => !mb.2 &&
            ((fun _ name => if name = "CO" then 3 else 0 : String → String → Nat) (mb.1.mid.getD "") mb.1.molecule == 3))).foldl
          (fun db mb => modifyKey "c1"
            (modifyKey (mb.1.mid.getD "") (setKey mb.1.molecule mb.1.cfg)) db)
          (checkMlineDatabase (fun a b _ => a == b : Nat → Nat → Bool → Bool) "c1" "new" ([("c1", [("c1", [])])] : MlDb Nat) ([⟨"CO", 3, none⟩, ⟨"H2O", 4, none⟩] : List (Molec Nat))).1.ml_db)) ∧
    ((doMline (fun a b _ => a == b : Nat → Nat → Bool → Bool) (fun _ name => if name = "CO" then 3 else 0 : String → String → Nat) "c1" "new" ([("c1", [("c1", [])])] : MlDb Nat) ([⟨"CO", 3, none⟩, ⟨"H2O", 4, none⟩] : List (Molec Nat))).2.2.2
      = ((checkMlineDatabase (fun a b _ => a == b : Nat → Nat → Bool → Bool) "c1" "new" ([("c1", [("c1", [])])] : MlDb Nat) ([⟨"CO", 3, none⟩, ⟨"H2O", 4, none⟩] : List (Molec Nat))).2.zip
          (checkMlineDatabase (fun a b _ => a == b : Nat → Nat → Bool → Bool) "c1" "new" ([("c1", [("c1", [])])] : MlDb Nat) ([⟨"CO", 3, none⟩, ⟨"H2O", 4, none⟩] : List (Molec Nat))).1.bools).countP
          (fun mb => !mb.2)) ∧
    ((doMline (fun a b _ => a == b : Nat → Nat → Bool → Bool) (fun _ name => if name = "CO" then 3 else 0 : String → String → Nat) "c1" "new" ([("c1", [("c1", [])])] : MlDb Nat) ([⟨"CO", 3, none⟩, ⟨"H2O", 4, none⟩] : List (Molec Nat))).1 = "" ↔
      ((doMline (fun a b _ => a == b : Nat → Nat → Bool → Bool) (fun _ name => if name = "CO" then 3 else 0 : String → String → Nat) "c1" "new" ([("c1", [("c1", [])])] : MlDb Nat) ([⟨"CO", 3, none⟩, ⟨"H2O", 4, none⟩] : List (Molec Nat))).2.2.1 ≠ [] ∧
       ∀ m ∈ (doMline (fun a b _ => a == b : Nat → Nat → Bool → Bool) (fun _ name => if name = "CO" then 3 else 0 : String → String → Nat) "c1" "new" ([("c1", [("c1", [])])] : MlDb Nat) ([⟨"CO", 3, none⟩, ⟨"H2O", 4, none⟩] : List (Molec Nat))).2.2.1,
         m.mid = some "")) ∧
    (∀ (ms2 : Nat → Nat → Bool) (vic : Bool) (stS : SphState Nat) (t : TransT Nat),
        t.molecId = "" →
        sphinxStep ms2 vic "c1" "new" stS t
          = ({ stS with bools := stS.bools ++ [false] },
             { t with mid := some "" })) ∧
    (∀ (ms2 : Nat → Nat → Bool) (vic : Bool) (stS : SphState Nat)
        (ts : List (TransT Nat)),
        (sphinxSteps ms2 vic "c1" "new" stS ts).2.length = ts.length)) :=
  ⟨by decide,
   mline_partial_failure_independence
     (fun a b _ => a == b : Nat → Nat → Bool → Bool)
     (fun _ name => if name = "CO" then 3 else 0 : String → String → Nat)
     "c1" "new" ([("c1", [("c1", [])])] : MlDb Nat)
     ([⟨"CO", 3, none⟩, ⟨"H2O", 4, none⟩] : List (Molec Nat))
     (by decide)⟩

end Gastronoom
